import Mathlib

/-!
Verification of the winsnap grid layout and window-snapping engine.

This file gives a shallow embedding, in Lean, of the core data model and
operations of `src/winsnap/winsnap.py` (the package variant of the engine):
the `Rectangle` primitive, the grid-cell construction and labelling done by
`MonitorProfile.set_labels`, the window move/resize call sequence of
`move_window`, the selection bookkeeping of `AppTable`, the profile
serialization `to_dict` / `load_dict`, and the monitor-set identity lookup
`get_or_create_monitor_set_id`.  Python floats are modelled as `ℚ` (the
values manipulated are exact in the ranges exercised), Python `int()`
truncation as `pyInt`, Python sets as lists compared by membership, and the
side-effecting GUI methods as pure state-transition functions whose state
fields mirror the instance attributes of the corresponding Python classes.
-/

namespace WinSnap

/-- Rectangle primitive (winsnap.py, `Rectangle.__init__`): the constructor
swaps the left/right pair and the top/bottom pair when given inverted, and
the bounds are read-only properties afterwards. -/
structure Rectangle where
  left : ℚ
  right : ℚ
  top : ℚ
  bottom : ℚ
deriving DecidableEq

/-- Embedding of `Rectangle.__init__`: normalize each pair by swapping when
inverted, as the Python constructor does. -/
def Rectangle.make (left right top bottom : ℚ) : Rectangle :=
  let p1 := if left > right then (right, left) else (left, right)
  let p2 := if top > bottom then (bottom, top) else (top, bottom)
  { left := p1.1, right := p1.2, top := p2.1, bottom := p2.2 }

/-- Width property from `RectangleMixin.width`. -/
def Rectangle.width (r : Rectangle) : ℚ := r.right - r.left

/-- Height property from `RectangleMixin.height`. -/
def Rectangle.height (r : Rectangle) : ℚ := r.bottom - r.top

/-- Membership of a point in a (closed) rectangle. -/
def Rectangle.contains (r : Rectangle) (p : ℚ × ℚ) : Prop :=
  r.left ≤ p.1 ∧ p.1 ≤ r.right ∧ r.top ≤ p.2 ∧ p.2 ≤ r.bottom

instance (r : Rectangle) (p : ℚ × ℚ) : Decidable (r.contains p) := by
  unfold Rectangle.contains
  infer_instance

/-- Length of the overlap of the closed intervals `[a1, b1]` and `[a2, b2]`
(zero when they are disjoint or touch only at an endpoint). -/
def interLen (a1 b1 a2 b2 : ℚ) : ℚ := max 0 (min b1 b2 - max a1 a2)

/-- Area of the intersection of two axis-aligned rectangles. -/
def interArea (r1 r2 : Rectangle) : ℚ :=
  interLen r1.left r1.right r2.left r2.right * interLen r1.top r1.bottom r2.top r2.bottom

/-- Python's `sorted` on a list of numbers. -/
def pySortedQ (l : List ℚ) : List ℚ := List.insertionSort (· ≤ ·) l

/-- Python's `sorted` on a list of strings. -/
def pySortedStr (l : List String) : List String := List.insertionSort (· ≤ ·) l

/-- Python's `int()` applied to an exact rational: truncation toward zero. -/
def pyInt (q : ℚ) : ℤ := if 0 ≤ q then ⌊q⌋ else ⌈q⌉

/-! ### Grid construction (`MonitorProfile.set_labels`)

`set_labels` reads the current drag-line values, sorts them, and
1. computes the centers of the column bands and row bands and numbers the
   label annotations iterating the *reversed* row centers in the outer loop
   and the column centers in the inner loop, and
2. rebuilds `_rectangle_mapping` from the edge lists
   `x_edges = [work.left] + sorted(xlines) + [work.right]` and
   `y_edges = [work.top] + sorted(ylines) + [work.bottom]`, iterating the
   x-bands in the outer loop and the y-bands in the inner loop, assigning
   grid numbers 1, 2, 3, ... in that order.

The mapping is modelled as the list of cell rectangles in grid-number
order: grid number `n` is element `n - 1`. -/

/-- Edge list `[lo] + vals + [hi]` used for both axes in `set_labels`. -/
def gridEdges (lo : ℚ) (vals : List ℚ) (hi : ℚ) : List ℚ := lo :: vals ++ [hi]

/-- Consecutive pairs `(edges[i], edges[i+1])` of an edge list, i.e. the
bands the loop `for i in range(len(edges) - 1)` walks over. -/
def bandsOf (edges : List ℚ) : List (ℚ × ℚ) := edges.zip edges.tail

/-- Band centers: the loop `for x1 in chain(vals, [hi]): xs.append((x0 + x1) / 2); x0 = x1`
starting from `x0 = lo`, applied to `vals ++ [hi]`. -/
def centerList (x0 : ℚ) : List ℚ → List ℚ
  | [] => []
  | x1 :: rest => ((x0 + x1) / 2) :: centerList x1 rest

/-- The `_rectangle_mapping` built at the end of `set_labels`, as a list in
grid-number order: the outer loop ranges over x-bands, the inner loop over
y-bands, and each cell is `Rectangle(x0, x1, y0, y1)`. -/
def rectangleMapping (work : Rectangle) (xlineValues ylineValues : List ℚ) : List Rectangle :=
  let x_edges := gridEdges work.left (pySortedQ xlineValues) work.right
  let y_edges := gridEdges work.top (pySortedQ ylineValues) work.bottom
  (bandsOf x_edges).flatMap fun xb => (bandsOf y_edges).map fun yb =>
    Rectangle.make xb.1 xb.2 yb.1 yb.2

/-- Positions at which the numbered labels are drawn, in numbering order:
`set_labels` iterates `zip(reversed(ys), y_percents)` in the outer loop and
`zip(xs, x_percents)` in the inner loop, incrementing the number each
time, so label number `n` is drawn at element `n - 1` of this list. -/
def labelCenters (work : Rectangle) (xlineValues ylineValues : List ℚ) : List (ℚ × ℚ) :=
  let xs := centerList work.left (pySortedQ xlineValues ++ [work.right])
  let ys := centerList work.top (pySortedQ ylineValues ++ [work.bottom])
  ys.reverse.flatMap fun y => xs.map fun x => (x, y)

/-! ### Serialization (`MonitorProfile.to_dict` / `MonitorProfile.load_dict`) -/

/-- Embedding of `MonitorProfile.to_dict`: the stored pair is
(`"xlines"` entry, `"ylines"` entry).  The source divides each x-line value
by `work.height` and each y-line value by `work.width`. -/
def to_dict (work : Rectangle) (xlines ylines : List ℚ) : List ℚ × List ℚ :=
  (pySortedQ (xlines.map (fun v => v / work.height)),
   pySortedQ (ylines.map (fun v => v / work.width)))

/-- Embedding of `MonitorProfile.load_dict`, returning the pair
(x-line positions, y-line positions) of the drag lines it creates: each
`"xlines"` entry is multiplied by `work.width` and truncated with `int()`,
each `"ylines"` entry is multiplied by `work.height` and truncated. -/
def load_dict (work : Rectangle) (serialized : List ℚ × List ℚ) : List ℚ × List ℚ :=
  ((serialized.1).map (fun value => ((pyInt (value * work.width) : ℤ) : ℚ)),
   (serialized.2).map (fun value => ((pyInt (value * work.height) : ℤ) : ℚ)))

/-! ### Window movement (`move_window`) -/

/-- One OS window-manipulation call issued by `move_window`:
`ShowWindow(SW_RESTORE)`, a `SetWindowPos` with `SWP_NOSIZE` (position
only), or a `SetWindowPos` with `SWP_NOMOVE` (size only). -/
inductive WinCall where
  | restore : WinCall
  | setPos (x y : ℤ) : WinCall
  | setSize (w h : ℤ) : WinCall
deriving DecidableEq

/-- The four border offsets returned by `get_window_borders`. -/
structure Borders where
  left : ℤ
  right : ℤ
  top : ℤ
  bottom : ℤ

/-- Embedding of `move_window`: the sequence of OS calls it issues, in
order, given the queried border offsets and the integer target (the caller
`MonitorProfile.snap` passes `int(rect.left), int(rect.top), int(rect.width),
int(rect.height)`). -/
def move_window (borders : Borders) (x y width height : ℤ) : List WinCall :=
  [WinCall.restore,
   WinCall.setPos (x - borders.left) (y - borders.top),
   WinCall.setSize (width + borders.left + borders.right)
     (height + borders.top + borders.bottom)]

/-- Arguments `MonitorProfile.snap` passes to `move_window` for a cell. -/
def snapCallArgs (rect : Rectangle) : ℤ × ℤ × ℤ × ℤ :=
  (pyInt rect.left, pyInt rect.top, pyInt rect.width, pyInt rect.height)

/-! ### Monitor and its `__hash__` -/

/-- Python runtime value as far as the `__hash__` contract is concerned:
`__hash__` must return an `int`; returning anything else makes `hash()`
raise `TypeError` at runtime. -/
inductive PyValue where
  | int (n : ℤ) : PyValue
  | str (s : String) : PyValue
deriving DecidableEq

/-- The `Monitor` dataclass: `id` is annotated `str` (it is the
`DeviceID` string from `EnumDisplayDevices`). -/
structure Monitor where
  area : Rectangle
  work : Rectangle
  is_primary : Bool
  name : String
  id : String

/-- Embedding of `Monitor.__hash__`, which executes `return self.id`. -/
def Monitor.hashImpl (m : Monitor) : PyValue := PyValue.str m.id

/-! ### Monitor-set identity (`MainWindow.get_or_create_monitor_set_id`) -/

/-- Python `set(l1) == set(l2)`: equality of the two lists as sets. -/
def setEqB (l1 l2 : List String) : Bool :=
  l1.all (fun x => l2.elem x) && l2.all (fun x => l1.elem x)

/-- Embedding of `MainWindow.get_or_create_monitor_set_id`: scan the stored
`monitor_sets` (an id-keyed mapping, modelled as an association list in
iteration order) for an entry whose monitor-id list equals the current ids
as a set; return its key, or mint a fresh id (`str(uuid4())`, modelled as
the parameter `fresh_id`) when none matches. -/
def get_or_create_monitor_set_id (monitor_sets : List (String × List String))
    (current_monitor_ids : List String) (fresh_id : String) : String :=
  match monitor_sets.find? (fun p => setEqB p.2 current_monitor_ids) with
  | some p => p.1
  | none => fresh_id

/-! ### AppTable (selection bookkeeping)

State fields mirror the instance attributes: `_nrows`, `_grid_mapping`
(a `defaultdict(list)`, modelled as an association list with `[]` as the
default), `_allocated_windows` (a Python set, modelled as a deduplicated
list), and the contents of each row's dearpygui table widget (which is what
`get_table_selections` / `get_table_item` read), modelled as `table_rows`.
Window names are strings; Python sets of them are modelled as lists
compared by membership. -/

/-- Python set union `set(l1) | set(l2)`, as a list with the same members. -/
def pyUnion (l1 l2 : List String) : List String := l1 ++ l2.filter (fun x => x ∉ l1)

/-- Python set intersection `set(l1) & set(l2)`, as a list. -/
def pyInter (l1 l2 : List String) : List String := l1.filter (fun x => x ∈ l2)

/-- Python set difference `set(l1) - set(l2)`, as a list. -/
def pyDiff (l1 l2 : List String) : List String := l1.filter (fun x => x ∉ l2)

/-- Lookup in a `defaultdict(list)` modelled as an association list. -/
def lookupD (m : List (ℕ × List String)) (k : ℕ) : List String :=
  match m.find? (fun p => p.1 == k) with
  | some p => p.2
  | none => []

/-- Assignment `m[k] = v` on a `defaultdict` modelled as an association
list: replace the entry when the key is present, append it otherwise. -/
def setKey (m : List (ℕ × List String)) (k : ℕ) (v : List String) : List (ℕ × List String) :=
  if m.any (fun p => p.1 == k) then
    m.map (fun p => if p.1 == k then (k, v) else p)
  else m ++ [(k, v)]

/-- State of one `AppTable` instance. -/
structure AppTableState where
  nrows : ℕ
  grid_mapping : List (ℕ × List String)
  allocated_windows : List String
  table_rows : List (ℕ × List String)
deriving DecidableEq

/-- Embedding of `AppTable.clear`: delete the row widgets `1 .. nrows`
(and with them the per-row tables) and reset `_nrows` to 0; the
`_grid_mapping` and `_allocated_windows` attributes are not touched. -/
def AppTable.clear (st : AppTableState) : AppTableState :=
  { st with
      table_rows := st.table_rows.filter (fun p => !((List.range' 1 st.nrows).contains p.1)),
      nrows := 0 }

/-- Embedding of `AppTable.set_rows`: for each row `1 .. nrows`, keep the
row when its widgets already exist, otherwise create it with a table listing
all of `sorted(ACTIVE_WINDOWS)`; then set `_nrows`.  Rows beyond `nrows`
are not deleted here (the callers that shrink the grid call `clear` first). -/
def AppTable.set_rows (st : AppTableState) (nrows : ℕ) (active : List String) : AppTableState :=
  { st with
      table_rows :=
        ((List.range' 1 nrows).map (fun row =>
          match st.table_rows.find? (fun p => p.1 == row) with
          | some p => p
          | none => (row, pySortedStr active)))
        ++ st.table_rows.filter (fun p => !((List.range' 1 nrows).contains p.1)),
      nrows := nrows }

/-- Embedding of `AppTable.refresh_available_windows`: with
`available = set(ACTIVE_WINDOWS) - allocated`, rebuild every row
`1 .. nrows`: its mapping entry becomes `set(grid_mapping[row]) & active`
and its table is repopulated with `sorted(available | that set)`.
`_allocated_windows` is left as it is. -/
def AppTable.refresh_available_windows (st : AppTableState) (active : List String) :
    AppTableState :=
  let available := pyDiff active st.allocated_windows
  { st with
      grid_mapping := (List.range' 1 st.nrows).map (fun row =>
        (row, pyInter (lookupD st.grid_mapping row) active)),
      table_rows := (List.range' 1 st.nrows).map (fun row =>
        (row, pySortedStr (pyUnion available (pyInter (lookupD st.grid_mapping row) active)))) }

/-- Embedding of `AppTable.selected`: the callback receives the selected
table coordinates for row `row` (modelled as indices into that row's table
contents), stores the corresponding items as the row's selection, recomputes
`_allocated_windows` as the union of all selections, and refreshes. -/
def AppTable.selected (st : AppTableState) (row : ℕ) (selections : List ℕ)
    (active : List String) : AppTableState :=
  let selected_items := selections.filterMap (fun i => (lookupD st.table_rows row)[i]?)
  let gm := setKey st.grid_mapping row selected_items
  let alloc := (gm.flatMap (fun p => p.2)).dedup
  AppTable.refresh_available_windows
    { st with grid_mapping := gm, allocated_windows := alloc } active

/-- One user-driven `AppTable` event: a selection in some row's table, or a
refresh of the available windows (`ACTIVE_WINDOWS` at that moment is an
argument, since the global window list changes between events). -/
inductive TableOp where
  | select (row : ℕ) (selections : List ℕ) (active : List String) : TableOp
  | refresh (active : List String) : TableOp

/-- Apply one event to an `AppTable` state. -/
def applyOp (st : AppTableState) (op : TableOp) : AppTableState :=
  match op with
  | TableOp.select row sel active => AppTable.selected st row sel active
  | TableOp.refresh active => AppTable.refresh_available_windows st active

/-- Run a sequence of events. -/
def runOps (st : AppTableState) (ops : List TableOp) : AppTableState := ops.foldl applyOp st

/-- A freshly constructed `AppTable` (`__init__`): no rows, empty mapping,
nothing allocated. -/
def emptyTable : AppTableState := ⟨0, [], [], []⟩

/-- The table right after construction followed by `set_rows` (as
`MonitorProfile.__init__` and `input_callback` do). -/
def initTable (nrows : ℕ) (active : List String) : AppTableState :=
  AppTable.set_rows emptyTable nrows active

/-! ### MonitorProfile (`input_callback` / `set_labels`) -/

/-- State of one `MonitorProfile` instance: the drag-line positions (the
values of the `_xlines` / `_ylines` widgets), the `_rectangle_mapping` in
grid-number order, the owned `AppTable`, and the value of the rows/cols
input widget. -/
structure ProfileState where
  xlines : List ℚ
  ylines : List ℚ
  rectangle_mapping : List Rectangle
  app_table : AppTableState
  input_value : ℤ × ℤ

/-- Embedding of `MonitorProfile.set_labels` at the state level: rebuild
`_rectangle_mapping` from the current line values. -/
def set_labels (work : Rectangle) (st : ProfileState) : ProfileState :=
  { st with rectangle_mapping := rectangleMapping work st.xlines st.ylines }

/-- Embedding of `MonitorProfile.input_callback`: clamp the entered rows
and cols to at least 1, write the clamped pair back to the input widget,
recreate the drag lines at `int(work.top + (row / rows) * work.height)` and
`int(work.left + (col / cols) * work.width)`, rebuild the labels and the
rectangle mapping, then clear the app table's rows and recreate
`rows * cols` of them. -/
def input_callback (work : Rectangle) (st : ProfileState) (rows cols : ℤ)
    (active : List String) : ProfileState :=
  let rows := if rows < 1 then 1 else rows
  let cols := if cols < 1 then 1 else cols
  let ylines := (List.range' 1 (rows.toNat - 1)).map
    (fun row => ((pyInt (work.top + ((row : ℚ) / (rows : ℚ)) * work.height) : ℤ) : ℚ))
  let xlines := (List.range' 1 (cols.toNat - 1)).map
    (fun col => ((pyInt (work.left + ((col : ℚ) / (cols : ℚ)) * work.width) : ℤ) : ℚ))
  let st1 := set_labels work
    { st with xlines := xlines, ylines := ylines, input_value := (rows, cols) }
  { st1 with app_table :=
      AppTable.set_rows (AppTable.clear st1.app_table) (rows * cols).toNat active }

/-! ## Theorems -/

/-- Claim C8: for every four numeric inputs, including inverted orderings,
the `Rectangle` constructor never raises (it is a total function in this
embedding) and the constructed rectangle satisfies `left ≤ right` and
`top ≤ bottom`, its stored bounds being exactly the min/max of each input
pair, i.e. the result of swapping any inverted pair. -/
theorem C8_rectangle_normalizes (left right top bottom : ℚ) :
    (Rectangle.make left right top bottom).left ≤ (Rectangle.make left right top bottom).right ∧
    (Rectangle.make left right top bottom).top ≤ (Rectangle.make left right top bottom).bottom ∧
    Rectangle.make left right top bottom =
      { left := min left right, right := max left right,
        top := min top bottom, bottom := max top bottom } := by
  have h : Rectangle.make left right top bottom =
      { left := min left right, right := max left right,
        top := min top bottom, bottom := max top bottom } := by
    unfold Rectangle.make
    simp only [min_def, max_def]
    split_ifs <;> simp_all <;> linarith
  refine ⟨?_, ?_, h⟩ <;> rw [h]
  · exact min_le_max
  · exact min_le_max

/-- Claim C5: `move_window` first restores the window, then issues a
position-only call to `(x - left, y - top)`, then a size-only call to
`(width + left + right, height + top + bottom)`, in exactly that order;
in particular, with border offsets (2,2,0,4) and target rectangle
(100,100)-(300,300) — which `snap` passes as position (100,100) and size
(200,200) — the position call is (98,100) and the size call is (204,204). -/
theorem C5_move_window_sequence :
    (∀ (b : Borders) (x y width height : ℤ),
      move_window b x y width height =
        [WinCall.restore, WinCall.setPos (x - b.left) (y - b.top),
         WinCall.setSize (width + b.left + b.right) (height + b.top + b.bottom)]) ∧
    snapCallArgs (Rectangle.make 100 300 100 300) = (100, 100, 200, 200) ∧
    move_window ⟨2, 2, 0, 4⟩ 100 100 200 200 =
      [WinCall.restore, WinCall.setPos 98 100, WinCall.setSize 204 204] := by
  refine ⟨fun b x y width height => rfl, ?_, by norm_num [move_window]⟩
  have hr : Rectangle.make 100 300 100 300 =
      { left := 100, right := 300, top := 100, bottom := 300 } := by
    norm_num [Rectangle.make]
  norm_num [snapCallArgs, hr, Rectangle.width, Rectangle.height, pyInt, Int.floor_ofNat]

/-- Claim C9: for every pair of integers entered as the grid size,
`input_callback` clamps each value below 1 to exactly 1, leaves values that
are at least 1 unchanged, and proceeds normally (it is a total function, no
input is rejected), so the effective grid always has rows ≥ 1 and
cols ≥ 1. -/
theorem C9_input_clamped (work : Rectangle) (st : ProfileState) (rows cols : ℤ)
    (active : List String) :
    (input_callback work st rows cols active).input_value =
      ((if rows < 1 then 1 else rows), (if cols < 1 then 1 else cols)) ∧
    1 ≤ (input_callback work st rows cols active).input_value.1 ∧
    1 ≤ (input_callback work st rows cols active).input_value.2 := by
  refine ⟨rfl, ?_, ?_⟩ <;>
    · show (1 : ℤ) ≤ _
      simp only [input_callback, set_labels]
      split_ifs <;> omega

/-- Claim C10: `Monitor.__hash__` returns the monitor's `id` field, which
is a string rather than an integer, so the hash contract requiring an
integer result is violated for every `Monitor` instance and hashing a
monitor fails at runtime. -/
theorem C10_hash_returns_str (m : Monitor) :
    Monitor.hashImpl m = PyValue.str m.id ∧ ∀ n : ℤ, Monitor.hashImpl m ≠ PyValue.int n :=
  ⟨rfl, fun _ h => PyValue.noConfusion h⟩

/-- Python `set(l1) == set(l2)` holds exactly when the lists have the same
members. -/
lemma setEqB_iff (l1 l2 : List String) :
    setEqB l1 l2 = true ↔ ∀ x, x ∈ l1 ↔ x ∈ l2 := by
  simp only [setEqB, Bool.and_eq_true, List.all_eq_true, List.elem_iff]
  constructor
  · exact fun h x => ⟨fun hx => h.1 x hx, fun hx => h.2 x hx⟩
  · exact fun h => ⟨fun x hx => (h x).1 hx, fun x hx => (h x).2 hx⟩

/-- Claim C6: `get_or_create_monitor_set_id` returns an existing identity
exactly when some stored monitor-id list equals the current monitor ids as
a set (ignoring order and duplicates), and otherwise returns the freshly
minted id; moreover two current monitor-id lists that differ as sets (in
particular when one is a strict subset of the other) never resolve to the
same identity. -/
theorem C6_monitor_set_identity (monitor_sets : List (String × List String))
    (current : List String) (fresh_id : String)
    (hfresh : ∀ p ∈ monitor_sets, p.1 ≠ fresh_id)
    (hnodup : (monitor_sets.map Prod.fst).Nodup) :
    ((get_or_create_monitor_set_id monitor_sets current fresh_id
        ∈ monitor_sets.map Prod.fst) ↔
      (∃ p ∈ monitor_sets, ∀ x, x ∈ p.2 ↔ x ∈ current)) ∧
    (get_or_create_monitor_set_id monitor_sets current fresh_id
        ∈ monitor_sets.map Prod.fst ∨
      get_or_create_monitor_set_id monitor_sets current fresh_id = fresh_id) ∧
    (∀ current2 fresh2, (∀ p ∈ monitor_sets, p.1 ≠ fresh2) → fresh_id ≠ fresh2 →
      ¬ (∀ x, x ∈ current ↔ x ∈ current2) →
      get_or_create_monitor_set_id monitor_sets current fresh_id ≠
        get_or_create_monitor_set_id monitor_sets current2 fresh2) := by
  refine ⟨?_, ?_, ?_⟩
  · unfold get_or_create_monitor_set_id
    cases h : monitor_sets.find? (fun p => setEqB p.2 current) with
    | none =>
      simp only [List.find?_eq_none] at h
      constructor
      · intro hmem
        rcases List.mem_map.1 hmem with ⟨p, hp, hp1⟩
        exact absurd hp1 (hfresh p hp)
      · rintro ⟨p, hp, hpeq⟩
        exact absurd ((setEqB_iff _ _).2 hpeq) (by simpa using h p hp)
    | some p =>
      have hmem : p ∈ monitor_sets := List.mem_of_find?_eq_some h
      have heq : setEqB p.2 current = true := by
        have := List.find?_some h
        simpa using this
      exact iff_of_true (List.mem_map.2 ⟨p, hmem, rfl⟩)
        ⟨p, hmem, (setEqB_iff _ _).1 heq⟩
  · unfold get_or_create_monitor_set_id
    cases h : monitor_sets.find? (fun p => setEqB p.2 current) with
    | none => exact Or.inr rfl
    | some p => exact Or.inl (List.mem_map.2 ⟨p, List.mem_of_find?_eq_some h, rfl⟩)
  · intro current2 fresh2 hfresh2 hne hdiff
    unfold get_or_create_monitor_set_id
    cases h1 : monitor_sets.find? (fun p => setEqB p.2 current) with
    | none =>
      cases h2 : monitor_sets.find? (fun p => setEqB p.2 current2) with
      | none => exact hne
      | some q => exact fun hq => (hfresh q (List.mem_of_find?_eq_some h2)) hq.symm
    | some p =>
      cases h2 : monitor_sets.find? (fun p => setEqB p.2 current2) with
      | none => exact hfresh2 p (List.mem_of_find?_eq_some h1)
      | some q =>
        intro hpq
        have hp : p ∈ monitor_sets := List.mem_of_find?_eq_some h1
        have hq : q ∈ monitor_sets := List.mem_of_find?_eq_some h2
        have hpe : ∀ x, x ∈ p.2 ↔ x ∈ current :=
          (setEqB_iff _ _).1 (by simpa using List.find?_some h1)
        have hqe : ∀ x, x ∈ q.2 ↔ x ∈ current2 :=
          (setEqB_iff _ _).1 (by simpa using List.find?_some h2)
        have hpq2 : p = q := List.inj_on_of_nodup_map hnodup hp hq hpq
        exact hdiff fun x => ((hpe x).symm.trans (hpq2 ▸ hqe x))

/-- Witness for C6: a store holding one identity for the set {m1, m2};
looking it up with the ids enumerated in the other order finds it, and the
strict subset [m1] resolves to a different identity. -/
theorem C6_monitor_set_identity_witness :
    (∀ p ∈ [("id-a", ["m1", "m2"])], p.1 ≠ "id-new") ∧
    ([("id-a", ["m1", "m2"])].map Prod.fst).Nodup ∧
    ((get_or_create_monitor_set_id [("id-a", ["m1", "m2"])] ["m2", "m1"] "id-new"
        ∈ [("id-a", ["m1", "m2"])].map Prod.fst) ↔
      (∃ p ∈ [("id-a", ["m1", "m2"])], ∀ x, x ∈ p.2 ↔ x ∈ ["m2", "m1"])) ∧
    (¬ (∀ x, x ∈ ["m2", "m1"] ↔ x ∈ ["m1"])) ∧
    (get_or_create_monitor_set_id [("id-a", ["m1", "m2"])] ["m2", "m1"] "id-new" ≠
      get_or_create_monitor_set_id [("id-a", ["m1", "m2"])] ["m1"] "id-other") :=
  ⟨by decide, by decide,
   (C6_monitor_set_identity [("id-a", ["m1", "m2"])] ["m2", "m1"] "id-new"
      (by decide) (by decide)).1,
   fun h => absurd ((h "m2").1 (by decide)) (by decide),
   (C6_monitor_set_identity [("id-a", ["m1", "m2"])] ["m2", "m1"] "id-new"
      (by decide) (by decide)).2.2 ["m1"] "id-other" (by decide) (by decide)
      (fun h => absurd ((h "m2").1 (by decide)) (by decide))⟩

/-- Claim C1 (falsified by the code): on the work rectangle (0,100,0,100)
with one column divider at 50 and one row divider at 50, the
`_rectangle_mapping` built by `set_labels` assigns grid number 2 to the
cell *below* cell 1 (the mapping loops run x-bands outer, y-bands inner,
i.e. column-major), not to the cell to its right as the row-major claim
requires; and the rendered label number 2 is placed at x-center 75, outside
the x-range [0, 50] of mapped rectangle 2, so the numbered labels and the
mapping disagree as well. -/
theorem C1_mapping_is_column_major :
    (rectangleMapping (Rectangle.make 0 100 0 100) [50] [50])[1]? =
      some { left := 0, right := 50, top := 50, bottom := 100 } ∧
    (rectangleMapping (Rectangle.make 0 100 0 100) [50] [50])[1]? ≠
      some { left := 50, right := 100, top := 0, bottom := 50 } ∧
    (labelCenters (Rectangle.make 0 100 0 100) [50] [50])[1]? = some (75, 75) ∧
    ¬ (Rectangle.contains { left := 0, right := 50, top := 50, bottom := 100 } (75, 75)) := by
  have hwork : Rectangle.make 0 100 0 100 =
      { left := 0, right := 100, top := 0, bottom := 100 } := by
    norm_num [Rectangle.make]
  refine ⟨?_, ?_, ?_, by decide⟩
  · rw [hwork]
    norm_num [rectangleMapping, gridEdges, bandsOf, pySortedQ, List.insertionSort,
      List.orderedInsert, Rectangle.make]
  · rw [hwork]
    norm_num [rectangleMapping, gridEdges, bandsOf, pySortedQ, List.insertionSort,
      List.orderedInsert, Rectangle.make]
  · rw [hwork]
    norm_num [labelCenters, centerList, pySortedQ, List.insertionSort, List.orderedInsert]

/-- Claim C2 (falsified by the code): `to_dict` divides x-line positions by
the work height and y-line positions by the work width, while `load_dict`
multiplies the stored `"xlines"` entries by the width and the `"ylines"`
entries by the height, so save followed by load is not the identity on the
grid geometry: on a 1920x1080 work area, a vertical divider at x = 960 is
stored as 960/1080 and loaded back at int(960/1080*1920) = 1706. -/
theorem C2_roundtrip_moves_divider :
    load_dict (Rectangle.make 0 1920 0 1080)
        (to_dict (Rectangle.make 0 1920 0 1080) [960] []) = ([1706], []) ∧
    ((1706 : ℚ) ≠ 960) := by
  have hwork : Rectangle.make 0 1920 0 1080 =
      { left := 0, right := 1920, top := 0, bottom := 1080 } := by
    norm_num [Rectangle.make]
  have hfloor : pyInt ((5120 : ℚ) / 3) = 1706 := by
    unfold pyInt
    rw [if_pos (by norm_num)]
    rw [Int.floor_eq_iff] <;> norm_num
  rw [hwork]
  refine ⟨?_, by norm_num⟩
  simp only [to_dict, load_dict, pySortedQ, List.insertionSort, List.orderedInsert,
    List.map, Rectangle.width, Rectangle.height]
  norm_num [hfloor]

/-- Claim C7 (falsified by the code): after selecting window "app" for cell
1 on a 1x1 grid, running `input_callback` with a changed grid size (2x2)
leaves `_grid_mapping` still holding the old allocation {1: ["app"]}
(`AppTable.clear` deletes only the row widgets; neither it nor
`input_callback` clears `_grid_mapping` or `_allocated_windows`), so the
cell-to-windows allocation mapping is not empty after the grid-size
change. -/
theorem C7_allocations_survive_grid_change :
    (runOps (initTable 1 ["app"]) [TableOp.select 1 [0] ["app"]]).grid_mapping
      = [(1, ["app"])] ∧
    (∀ (work : Rectangle) (xl yl : List ℚ) (rm : List Rectangle) (iv : ℤ × ℤ),
      (input_callback work
          ⟨xl, yl, rm, runOps (initTable 1 ["app"]) [TableOp.select 1 [0] ["app"]], iv⟩
          2 2 ["app"]).app_table.grid_mapping = [(1, ["app"])] ∧
      (input_callback work
          ⟨xl, yl, rm, runOps (initTable 1 ["app"]) [TableOp.select 1 [0] ["app"]], iv⟩
          2 2 ["app"]).app_table.allocated_windows = ["app"]) ∧
    ([((1 : ℕ), ["app"])] ≠ ([] : List (ℕ × List String))) := by
  have hpre : runOps (initTable 1 ["app"]) [TableOp.select 1 [0] ["app"]] =
      ⟨1, [(1, ["app"])], ["app"], [(1, ["app"])]⟩ := by decide
  refine ⟨by rw [hpre], fun work xl yl rm iv => ?_, by decide⟩
  rw [hpre]
  constructor
  · simp [input_callback, set_labels, AppTable.set_rows, AppTable.clear]
  · simp [input_callback, set_labels, AppTable.set_rows, AppTable.clear]

/-! ### AppTable invariant (claim C4) -/

/-- Membership in the modelled Python set intersection. -/
lemma mem_pyInter {w : String} {l1 l2 : List String} :
    w ∈ pyInter l1 l2 ↔ w ∈ l1 ∧ w ∈ l2 := by
  simp [pyInter, List.mem_filter]

/-- Membership in the modelled Python set union. -/
lemma mem_pyUnion {w : String} {l1 l2 : List String} :
    w ∈ pyUnion l1 l2 ↔ w ∈ l1 ∨ w ∈ l2 := by
  simp [pyUnion, List.mem_filter]
  tauto

/-- Membership in the modelled Python set difference. -/
lemma mem_pyDiff {w : String} {l1 l2 : List String} :
    w ∈ pyDiff l1 l2 ↔ w ∈ l1 ∧ w ∉ l2 := by
  simp [pyDiff, List.mem_filter]

/-- Sorting a list of window names does not change its members. -/
lemma mem_pySortedStr {w : String} {l : List String} :
    w ∈ pySortedStr l ↔ w ∈ l :=
  (List.perm_insertionSort _ l).mem_iff

/-- Anything looked up in an association list is among the values. -/
lemma lookupD_subset_values {m : List (ℕ × List String)} {k : ℕ} {w : String}
    (h : w ∈ lookupD m k) : w ∈ m.flatMap (fun p => p.2) := by
  unfold lookupD at h
  cases hf : m.find? (fun p => p.1 == k) with
  | none => rw [hf] at h; cases h
  | some p =>
    rw [hf] at h
    exact List.mem_flatMap.2 ⟨p, List.mem_of_find?_eq_some hf, h⟩

/-- Replacing every entry keyed `k` by `(k, v)` makes the first `k`-entry
found be `(k, v)`, provided a `k`-entry exists. -/
lemma find?_map_replace (m : List (ℕ × List String)) (k : ℕ) (v : List String)
    (h : m.any (fun p => p.1 == k) = true) :
    (m.map (fun p => if p.1 == k then (k, v) else p)).find? (fun p => p.1 == k) =
      some (k, v) := by
  induction m with
  | nil => simp at h
  | cons p m ih =>
    by_cases hp : p.1 = k
    · simp [hp]
    · have h' : m.any (fun q => q.1 == k) = true := by
        rcases List.any_eq_true.1 h with ⟨q, hq, hqk⟩
        rcases List.mem_cons.1 hq with rfl | hq'
        · exact absurd (by simpa using hqk) hp
        · exact List.any_eq_true.2 ⟨q, hq', hqk⟩
      simpa [hp] using ih h'

/-- Replacing `k`-entries does not affect lookups of other keys. -/
lemma find?_map_replace_other (m : List (ℕ × List String)) (k k' : ℕ) (v : List String)
    (h : k' ≠ k) :
    (m.map (fun p => if p.1 == k then (k, v) else p)).find? (fun p => p.1 == k') =
      m.find? (fun p => p.1 == k') := by
  induction m with
  | nil => rfl
  | cons q m ih =>
    simp only [List.map_cons]
    by_cases hq : q.1 = k
    · have hhead : (if (q.1 == k) = true then ((k : ℕ), v) else q) = (k, v) := by
        simp [hq]
      rw [hhead,
        List.find?_cons_of_neg _ (by simp only [beq_iff_eq]; exact fun hh => h hh.symm),
        List.find?_cons_of_neg _ (by simp only [beq_iff_eq, hq]; exact fun hh => h hh.symm)]
      exact ih
    · have hhead : (if (q.1 == k) = true then ((k : ℕ), v) else q) = q := by
        simp [hq]
      rw [hhead]
      by_cases hq' : q.1 = k'
      · rw [List.find?_cons_of_pos _ (by simpa using hq'),
          List.find?_cons_of_pos _ (by simpa using hq')]
      · rw [List.find?_cons_of_neg _ (by simpa using hq'),
          List.find?_cons_of_neg _ (by simpa using hq')]
        exact ih

/-- Lookup of the key just assigned by `setKey`. -/
lemma lookupD_setKey_self (m : List (ℕ × List String)) (k : ℕ) (v : List String) :
    lookupD (setKey m k v) k = v := by
  unfold setKey
  by_cases h : m.any (fun p => p.1 == k) = true
  · rw [if_pos h]
    unfold lookupD
    rw [find?_map_replace m k v h]
  · rw [if_neg h]
    unfold lookupD
    rw [List.find?_append]
    have hnone : m.find? (fun p => p.1 == k) = none := by
      rw [List.find?_eq_none]
      intro p hp hpk
      exact h (List.any_eq_true.2 ⟨p, hp, hpk⟩)
    simp [hnone]

/-- Lookup of a different key is unchanged by `setKey`. -/
lemma lookupD_setKey_other (m : List (ℕ × List String)) (k k' : ℕ) (v : List String)
    (h : k' ≠ k) :
    lookupD (setKey m k v) k' = lookupD m k' := by
  unfold setKey
  by_cases hany : m.any (fun p => p.1 == k) = true
  · rw [if_pos hany]
    unfold lookupD
    rw [find?_map_replace_other m k k' v h]
  · rw [if_neg hany]
    unfold lookupD
    rw [List.find?_append]
    have hne : [((k : ℕ), v)].find? (fun p => p.1 == k') = none := by
      rw [List.find?_eq_none]
      intro p hp
      rw [List.mem_singleton.1 hp]
      simp only [beq_iff_eq]
      exact fun hh => h hh.symm
    rw [hne]
    cases m.find? (fun p => p.1 == k') <;> rfl

/-- Lookup in the freshly rebuilt per-row association list produced by a
refresh. -/
lemma lookupD_map_pairs (l : List ℕ) (f : ℕ → List String) (r : ℕ) :
    lookupD (l.map (fun row => (row, f row))) r = if r ∈ l then f r else [] := by
  induction l with
  | nil => simp [lookupD]
  | cons a l ih =>
    by_cases ha : a = r
    · subst ha
      simp [lookupD]
    · unfold lookupD at ih ⊢
      simp only [List.map_cons]
      rw [List.find?_cons_of_neg _ (by simpa using ha)]
      rw [ih]
      simp [Ne.symm ha]

/-- No window id appears in the selections of two different grid cells. -/
def pairwiseDisjointCells (st : AppTableState) : Prop :=
  ∀ r1 r2, r1 ≠ r2 →
    ∀ w, w ∈ lookupD st.grid_mapping r1 → w ∈ lookupD st.grid_mapping r2 → False

/-- Inductive invariant of an `AppTable`: selections of distinct cells are
disjoint, every selected window is recorded in `_allocated_windows`, and a
window shown in a row's table that is recorded as allocated can only be
that row's own selection (other rows' tables exclude allocated windows). -/
def TableInv (st : AppTableState) : Prop :=
  pairwiseDisjointCells st ∧
  (∀ r w, w ∈ lookupD st.grid_mapping r → w ∈ st.allocated_windows) ∧
  (∀ r w, w ∈ lookupD st.table_rows r → w ∈ st.allocated_windows →
    w ∈ lookupD st.grid_mapping r)

/-- `refresh_available_windows` re-establishes the full invariant from its
first two clauses (it rebuilds every row's table from scratch). -/
lemma refresh_preserves_inv (st : AppTableState) (active : List String)
    (h1 : pairwiseDisjointCells st)
    (h2 : ∀ r w, w ∈ lookupD st.grid_mapping r → w ∈ st.allocated_windows) :
    TableInv (AppTable.refresh_available_windows st active) := by
  unfold AppTable.refresh_available_windows
  refine ⟨?_, ?_, ?_⟩
  · intro r1 r2 hne w hw1 hw2
    simp only [lookupD_map_pairs] at hw1 hw2
    split_ifs at hw1 hw2 with hr1 hr2
    · exact h1 r1 r2 hne w (mem_pyInter.1 hw1).1 (mem_pyInter.1 hw2).1
    · cases hw2
    · cases hw1
    · cases hw1
  · intro r w hw
    simp only [lookupD_map_pairs] at hw
    split_ifs at hw with hr
    · exact h2 r w (mem_pyInter.1 hw).1
    · cases hw
  · intro r w hw halloc
    simp only [lookupD_map_pairs] at hw ⊢
    split_ifs at hw ⊢ with hr
    · rcases mem_pyUnion.1 (mem_pySortedStr.1 hw) with hav | hsel
      · exact absurd halloc (mem_pyDiff.1 hav).2
      · exact hsel
    · cases hw

/-- `selected` preserves the invariant: the freshly selected items come
from the row's own table, so by the invariant they cannot belong to another
cell's selection. -/
lemma selected_preserves_inv (st : AppTableState) (row : ℕ) (sel : List ℕ)
    (active : List String) (h : TableInv st) :
    TableInv (AppTable.selected st row sel active) := by
  obtain ⟨h1, h2, h3⟩ := h
  unfold AppTable.selected
  set items := sel.filterMap (fun i => (lookupD st.table_rows row)[i]?) with hitems
  have hsub : ∀ w ∈ items, w ∈ lookupD st.table_rows row := by
    intro w hw
    rcases List.mem_filterMap.1 hw with ⟨i, _, hi⟩
    exact List.getElem?_mem hi
  set gm := setKey st.grid_mapping row items with hgm
  have hlook : ∀ r, lookupD gm r = if r = row then items else lookupD st.grid_mapping r := by
    intro r
    by_cases hr : r = row
    · subst hr; simp [hgm, lookupD_setKey_self]
    · simp [hgm, hr, lookupD_setKey_other _ _ _ _ hr]
  apply refresh_preserves_inv
  · intro r1 r2 hne w hw1 hw2
    rw [hlook] at hw1 hw2
    split_ifs at hw1 hw2 with e1 e2 e2
    · exact hne (e1.trans e2.symm)
    · have hw1' := h3 row w (hsub w hw1) (h2 r2 w hw2)
      exact h1 row r2 (e1 ▸ hne) w hw1' hw2
    · have hw2' := h3 row w (hsub w hw2) (h2 r1 w hw1)
      exact h1 r1 row (e2 ▸ hne) w hw1 hw2'
    · exact h1 r1 r2 hne w hw1 hw2
  · intro r w hw
    exact List.mem_dedup.2 (lookupD_subset_values hw)

/-- A fresh table (from `__init__` followed by `set_rows`) satisfies the
invariant: nothing is selected and nothing is allocated. -/
lemma initTable_inv (nrows : ℕ) (active : List String) :
    TableInv (initTable nrows active) := by
  refine ⟨?_, ?_, ?_⟩
  · intro r1 r2 _ w hw _
    simp [initTable, AppTable.set_rows, emptyTable, lookupD] at hw
  · intro r w hw
    simp [initTable, AppTable.set_rows, emptyTable, lookupD] at hw
  · intro r w _ hw
    simp [initTable, AppTable.set_rows, emptyTable] at hw

/-- Running any event preserves the invariant. -/
lemma applyOp_preserves_inv (st : AppTableState) (op : TableOp) (h : TableInv st) :
    TableInv (applyOp st op) := by
  cases op with
  | select row sel active => exact selected_preserves_inv st row sel active h
  | refresh active => exact refresh_preserves_inv st active h.1 h.2.1

/-- Claim C4: starting from an empty table (a fresh `AppTable` whose rows
were just created by `set_rows`), after any sequence of `selected` and
`refresh_available_windows` calls, no window identifier appears in the
selection lists of two different grid cells simultaneously. -/
theorem C4_window_in_at_most_one_cell (nrows : ℕ) (active0 : List String)
    (ops : List TableOp) :
    pairwiseDisjointCells (runOps (initTable nrows active0) ops) := by
  suffices h : ∀ (ops : List TableOp) (st : AppTableState), TableInv st →
      TableInv (runOps st ops) by
    exact (h ops (initTable nrows active0) (initTable_inv nrows active0)).1
  intro ops
  induction ops with
  | nil => exact fun st h => h
  | cons op ops ih =>
    intro st h
    exact ih (applyOp st op) (applyOp_preserves_inv st op h)

/-! ### Grid partition (claim C3) -/

/-- Bands of a two-element edge list. -/
lemma bandsOf_gridEdges_nil (lo hi : ℚ) : bandsOf (gridEdges lo [] hi) = [(lo, hi)] := rfl

/-- Unfolding the band list one divider at a time. -/
lemma bandsOf_gridEdges_cons (lo v : ℚ) (vs : List ℚ) (hi : ℚ) :
    bandsOf (gridEdges lo (v :: vs) hi) = (lo, v) :: bandsOf (gridEdges v vs hi) := rfl

/-- There are as many bands as dividers plus one. -/
lemma length_bandsOf_gridEdges (vals : List ℚ) : ∀ lo hi : ℚ,
    (bandsOf (gridEdges lo vals hi)).length = vals.length + 1 := by
  induction vals with
  | nil => intro lo hi; rfl
  | cons v vs ih =>
    intro lo hi
    rw [bandsOf_gridEdges_cons]
    simp [ih v hi]

/-- Every point of `[lo, hi]` lies in some band (no sortedness needed:
the bands walk from `lo` to `hi`). -/
lemma bands_cover (vals : List ℚ) : ∀ lo hi p : ℚ, lo ≤ p → p ≤ hi →
    ∃ b ∈ bandsOf (gridEdges lo vals hi), b.1 ≤ p ∧ p ≤ b.2 := by
  induction vals with
  | nil =>
    intro lo hi p h1 h2
    exact ⟨(lo, hi), by rw [bandsOf_gridEdges_nil]; exact List.mem_singleton_self _, h1, h2⟩
  | cons v vs ih =>
    intro lo hi p h1 h2
    rw [bandsOf_gridEdges_cons]
    by_cases hv : p ≤ v
    · exact ⟨(lo, v), List.mem_cons_self _ _, h1, hv⟩
    · obtain ⟨b, hb, hb1, hb2⟩ := ih v hi p (le_of_not_le hv) h2
      exact ⟨b, List.mem_cons_of_mem _ hb, hb1, hb2⟩

/-- With sorted dividers inside `[lo, hi]`, every band is a proper
sub-interval of `[lo, hi]`. -/
lemma bands_within (vals : List ℚ) : ∀ lo hi : ℚ, lo ≤ hi →
    List.Sorted (· ≤ ·) vals → (∀ v ∈ vals, lo ≤ v ∧ v ≤ hi) →
    ∀ b ∈ bandsOf (gridEdges lo vals hi), lo ≤ b.1 ∧ b.1 ≤ b.2 ∧ b.2 ≤ hi := by
  induction vals with
  | nil =>
    intro lo hi hlh _ _ b hb
    rw [bandsOf_gridEdges_nil] at hb
    rw [List.mem_singleton.1 hb]
    exact ⟨le_refl lo, hlh, le_refl hi⟩
  | cons v vs ih =>
    intro lo hi hlh hs hin b hb
    rw [bandsOf_gridEdges_cons] at hb
    have hv := hin v (List.mem_cons_self _ _)
    rcases List.mem_cons.1 hb with rfl | hb'
    · exact ⟨le_refl lo, hv.1, hv.2⟩
    · have hs' := (List.sorted_cons.1 hs).2
      have hin' : ∀ u ∈ vs, v ≤ u ∧ u ≤ hi := fun u hu =>
        ⟨(List.sorted_cons.1 hs).1 u hu, (hin u (List.mem_cons_of_mem _ hu)).2⟩
      have hres := ih v hi hv.2 hs' hin' b hb'
      exact ⟨hv.1.trans hres.1, hres.2.1, hres.2.2⟩

/-- With sorted dividers bounded by `hi`, any earlier band ends no later
than any later band starts. -/
lemma bands_pairwise_le (vals : List ℚ) : ∀ lo hi : ℚ,
    List.Sorted (· ≤ ·) vals → (∀ v ∈ vals, v ≤ hi) →
    List.Pairwise (fun b1 b2 => b1.2 ≤ b2.1) (bandsOf (gridEdges lo vals hi)) := by
  induction vals with
  | nil =>
    intro lo hi _ _
    rw [bandsOf_gridEdges_nil]
    exact List.pairwise_singleton _ _
  | cons v vs ih =>
    intro lo hi hs hin
    rw [bandsOf_gridEdges_cons]
    have hs' := (List.sorted_cons.1 hs).2
    have hvhi := hin v (List.mem_cons_self _ _)
    have hin' : ∀ u ∈ vs, v ≤ u ∧ u ≤ hi := fun u hu =>
      ⟨(List.sorted_cons.1 hs).1 u hu, hin u (List.mem_cons_of_mem _ hu)⟩
    refine List.Pairwise.cons ?_ (ih v hi hs' (fun u hu => (hin' u hu).2))
    intro b hb
    exact (bands_within vs v hi hvhi hs' hin' b hb).1

/-- The constructor does not swap already-ordered bounds. -/
lemma Rectangle.make_of_le {l r t b : ℚ} (h1 : l ≤ r) (h2 : t ≤ b) :
    Rectangle.make l r t b = { left := l, right := r, top := t, bottom := b } := by
  unfold Rectangle.make
  rw [if_neg (not_lt.2 h1), if_neg (not_lt.2 h2)]

/-- Interval overlap length vanishes when the intervals at most touch. -/
lemma interLen_eq_zero {a1 b1 a2 b2 : ℚ} (h : min b1 b2 ≤ max a1 a2) :
    interLen a1 b1 a2 b2 = 0 := by
  unfold interLen
  exact max_eq_left (sub_nonpos.2 h)

/-- Cells built from two band lists whose bands are proper and pairwise
ordered have pairwise zero intersection area (cells in different x-bands
are separated horizontally, cells in the same x-band are separated
vertically). -/
lemma mapping_pairwise_area (xbs ybs : List (ℚ × ℚ))
    (hxprop : ∀ b ∈ xbs, b.1 ≤ b.2) (hyprop : ∀ b ∈ ybs, b.1 ≤ b.2)
    (hxp : List.Pairwise (fun b1 b2 => b1.2 ≤ b2.1) xbs)
    (hyp : List.Pairwise (fun b1 b2 => b1.2 ≤ b2.1) ybs) :
    List.Pairwise (fun c1 c2 => interArea c1 c2 = 0)
      (xbs.flatMap fun xb => ybs.map fun yb => Rectangle.make xb.1 xb.2 yb.1 yb.2) := by
  induction xbs with
  | nil => simp
  | cons xb xbs ih =>
    rw [List.flatMap_cons, List.pairwise_append]
    obtain ⟨hxhead, hxtail⟩ := List.pairwise_cons.1 hxp
    have hxbprop := hxprop xb (List.mem_cons_self _ _)
    refine ⟨?_, ih (fun b hb => hxprop b (List.mem_cons_of_mem _ hb)) hxtail, ?_⟩
    · rw [List.pairwise_map]
      refine hyp.imp_of_mem ?_
      intro yb1 yb2 h1 h2 hle
      rw [Rectangle.make_of_le hxbprop (hyprop yb1 h1),
        Rectangle.make_of_le hxbprop (hyprop yb2 h2)]
      have hy0 : interLen yb1.1 yb1.2 yb2.1 yb2.2 = 0 :=
        interLen_eq_zero ((min_le_left _ _).trans (hle.trans (le_max_right _ _)))
      simp [interArea, hy0]
    · intro c1 hc1 c2 hc2
      rcases List.mem_map.1 hc1 with ⟨yb1, hyb1, rfl⟩
      rcases List.mem_flatMap.1 hc2 with ⟨xb2, hxb2, hc2m⟩
      rcases List.mem_map.1 hc2m with ⟨yb2, hyb2, rfl⟩
      rw [Rectangle.make_of_le hxbprop (hyprop yb1 hyb1),
        Rectangle.make_of_le (hxprop xb2 (List.mem_cons_of_mem _ hxb2)) (hyprop yb2 hyb2)]
      have hx0 : interLen xb.1 xb.2 xb2.1 xb2.2 = 0 :=
        interLen_eq_zero ((min_le_left _ _).trans ((hxhead xb2 hxb2).trans (le_max_right _ _)))
      simp [interArea, hx0]

/-- Flattening a constant-shape nested map multiplies the lengths. -/
lemma length_flatMap_map {α β γ : Type} (l1 : List α) (l2 : List β) (f : α → β → γ) :
    (l1.flatMap fun a => l2.map (f a)).length = l1.length * l2.length := by
  induction l1 with
  | nil => simp
  | cons a l ih => simp [ih, Nat.succ_mul, Nat.add_comm]

/-- Claim C3: for every work rectangle and every grid spec with sorted,
distinct row and column divider positions strictly inside the work area,
the mapping produced by `set_labels` contains exactly
`(#col dividers + 1) * (#row dividers + 1)` cell rectangles, the union of
the cells equals the work rectangle (as point sets), and any two distinct
cells intersect with zero area. -/
theorem C3_cells_partition_work (work : Rectangle) (xs ys : List ℚ)
    (hw1 : work.left ≤ work.right) (hw2 : work.top ≤ work.bottom)
    (hxs : List.Sorted (· < ·) xs) (hys : List.Sorted (· < ·) ys)
    (hxin : ∀ v ∈ xs, work.left < v ∧ v < work.right)
    (hyin : ∀ v ∈ ys, work.top < v ∧ v < work.bottom) :
    (rectangleMapping work xs ys).length = (xs.length + 1) * (ys.length + 1) ∧
    (∀ p : ℚ × ℚ, (∃ c ∈ rectangleMapping work xs ys, c.contains p) ↔ work.contains p) ∧
    List.Pairwise (fun c1 c2 => interArea c1 c2 = 0) (rectangleMapping work xs ys) := by
  have hxs' : List.Sorted (· ≤ ·) xs := hxs.imp le_of_lt
  have hys' : List.Sorted (· ≤ ·) ys := hys.imp le_of_lt
  have hsortx : pySortedQ xs = xs := hxs'.insertionSort_eq
  have hsorty : pySortedQ ys = ys := hys'.insertionSort_eq
  have hmap : rectangleMapping work xs ys =
      (bandsOf (gridEdges work.left xs work.right)).flatMap fun xb =>
        (bandsOf (gridEdges work.top ys work.bottom)).map fun yb =>
          Rectangle.make xb.1 xb.2 yb.1 yb.2 := by
    unfold rectangleMapping
    rw [hsortx, hsorty]
  have hxin' : ∀ v ∈ xs, work.left ≤ v ∧ v ≤ work.right := fun v hv =>
    ⟨(hxin v hv).1.le, (hxin v hv).2.le⟩
  have hyin' : ∀ v ∈ ys, work.top ≤ v ∧ v ≤ work.bottom := fun v hv =>
    ⟨(hyin v hv).1.le, (hyin v hv).2.le⟩
  have hxwithin := bands_within xs work.left work.right hw1 hxs' hxin'
  have hywithin := bands_within ys work.top work.bottom hw2 hys' hyin'
  refine ⟨?_, ?_, ?_⟩
  · rw [hmap, length_flatMap_map, length_bandsOf_gridEdges, length_bandsOf_gridEdges]
  · intro p
    constructor
    · rintro ⟨c, hc, hcp⟩
      rw [hmap] at hc
      rcases List.mem_flatMap.1 hc with ⟨xb, hxb, hcm⟩
      rcases List.mem_map.1 hcm with ⟨yb, hyb, rfl⟩
      have hx := hxwithin xb hxb
      have hy := hywithin yb hyb
      rw [Rectangle.make_of_le hx.2.1 hy.2.1] at hcp
      obtain ⟨p1, p2, p3, p4⟩ := hcp
      exact ⟨hx.1.trans p1, p2.trans hx.2.2, hy.1.trans p3, p4.trans hy.2.2⟩
    · rintro ⟨p1, p2, p3, p4⟩
      obtain ⟨xb, hxb, hx1, hx2⟩ := bands_cover xs work.left work.right p.1 p1 p2
      obtain ⟨yb, hyb, hy1, hy2⟩ := bands_cover ys work.top work.bottom p.2 p3 p4
      refine ⟨Rectangle.make xb.1 xb.2 yb.1 yb.2, ?_, ?_⟩
      · rw [hmap]
        exact List.mem_flatMap.2 ⟨xb, hxb, List.mem_map.2 ⟨yb, hyb, rfl⟩⟩
      · rw [Rectangle.make_of_le (hx1.trans hx2) (hy1.trans hy2)]
        exact ⟨hx1, hx2, hy1, hy2⟩
  · rw [hmap]
    exact mapping_pairwise_area _ _
      (fun b hb => (hxwithin b hb).2.1) (fun b hb => (hywithin b hb).2.1)
      (bands_pairwise_le xs work.left work.right hxs' (fun v hv => (hxin' v hv).2))
      (bands_pairwise_le ys work.top work.bottom hys' (fun v hv => (hyin' v hv).2))

/-- Witness for C3 at the spec's own scenario: a 1920x1080 work area with
one column divider at 960 and one row divider at 540 yields 4 cells tiling
the work area. -/
theorem C3_cells_partition_work_witness :
    (Rectangle.make 0 1920 0 1080).left ≤ (Rectangle.make 0 1920 0 1080).right ∧
    (Rectangle.make 0 1920 0 1080).top ≤ (Rectangle.make 0 1920 0 1080).bottom ∧
    List.Sorted (· < ·) [(960 : ℚ)] ∧ List.Sorted (· < ·) [(540 : ℚ)] ∧
    (∀ v ∈ [(960 : ℚ)], (Rectangle.make 0 1920 0 1080).left < v ∧
      v < (Rectangle.make 0 1920 0 1080).right) ∧
    (∀ v ∈ [(540 : ℚ)], (Rectangle.make 0 1920 0 1080).top < v ∧
      v < (Rectangle.make 0 1920 0 1080).bottom) ∧
    ((rectangleMapping (Rectangle.make 0 1920 0 1080) [960] [540]).length =
        ([(960 : ℚ)].length + 1) * ([(540 : ℚ)].length + 1) ∧
      (∀ p : ℚ × ℚ,
        (∃ c ∈ rectangleMapping (Rectangle.make 0 1920 0 1080) [960] [540], c.contains p) ↔
          (Rectangle.make 0 1920 0 1080).contains p) ∧
      List.Pairwise (fun c1 c2 => interArea c1 c2 = 0)
        (rectangleMapping (Rectangle.make 0 1920 0 1080) [960] [540])) :=
  ⟨by decide, by decide, by decide, by decide, by decide, by decide,
   C3_cells_partition_work (Rectangle.make 0 1920 0 1080) [960] [540]
     (by decide) (by decide) (by decide) (by decide) (by decide) (by decide)⟩

end WinSnap
